import Mathlib

/-!
Verification of the team-migration orchestrator (`src/module.py`) against its
natural-language specification.  Each Python function relevant to the claims is
shallowly embedded as an executable Lean definition.  External HTTP effects
(the GitHub client, `make_github_request`) are modelled by explicit
environments that give, per call site and attempt number, the outcome the
platform would return; exceptions become `Except` errors or dedicated
constructors.  All definitions are computable so that concrete runs evaluate
by `rfl` / `decide`.
-/

namespace Brahma

/- ### String helpers

Python's `str.lower()` and the truthiness test `not s.strip()` are modelled
structurally over the character list so that they reduce in the kernel
(ASCII case folding, which covers every name appearing in the source's
domain of team slugs and logins). -/

/-- ASCII lower-casing of one character, modelling Python `str.lower` on the
characters the migrator manipulates. -/
def lowerChar (c : Char) : Char :=
  if c.toNat ≥ 65 && c.toNat ≤ 90 then Char.ofNat (c.toNat + 32) else c

/-- Model of Python `s.lower()`. -/
def lowerStr (s : String) : String := String.mk (s.data.map lowerChar)

/-- Whitespace test for one character. -/
def isSpaceChar (c : Char) : Bool := c == ' ' || c == '\t' || c == '\n' || c == '\r'

/-- Model of Python's `not s or not s.strip()`: the string is empty or all
whitespace. -/
def isBlankStr (s : String) : Bool := s.data.all isSpaceChar

/-- `listLeads needle hay` is true when `needle` is an initial segment of
`hay` (helper for the substring test). -/
def listLeads {α : Type} [DecidableEq α] : List α → List α → Bool
  | [], _ => true
  | _ :: _, [] => false
  | a :: as, b :: bs => a = b && listLeads as bs

/-- `listInside needle hay` is true when `needle` occurs contiguously inside
`hay`. -/
def listInside {α : Type} [DecidableEq α] (needle : List α) : List α → Bool
  | [] => needle.isEmpty
  | b :: t => listLeads needle (b :: t) || listInside needle t

/-- Model of Python's `needle in hay` on strings. -/
def strIn (needle hay : String) : Bool := listInside needle.data hay.data

/- ### Dictionary helpers

Python dicts keyed by strings are modelled as association lists:
`assocFind` is `d.get(k)`, `statusSet` is `d[k] = v` (update in place if the
key exists, else append, preserving insertion order). -/

/-- Model of `d.get(k)` on a dict represented as an association list. -/
def assocFind {α : Type} (m : List (String × α)) (k : String) : Option α :=
  match m with
  | [] => none
  | (k2, v) :: rest => if k2 = k then some v else assocFind rest k

/-- Model of `d[k] = v` on a dict represented as an association list. -/
def statusSet {α : Type} (m : List (String × α)) (k : String) (v : α) :
    List (String × α) :=
  match m with
  | [] => [(k, v)]
  | (k2, v2) :: rest => if k2 = k then (k, v) :: rest else (k2, v2) :: statusSet rest k v

/- ### `user_exists_in_org` (src/module.py lines 13-48)

The function first validates the user (`validate_user`, an external call
whose outcome we model as `Option String`: the resolved login or `none`),
then enters a `while rate_limited and attempt < max_attempts` loop with
`max_attempts = 2`.  Each attempt fetches the organization; the outcome of
attempt `i` is given by the environment.  Inside a successful fetch the
member list is iterated and membership decided by exact login equality
against the validated login; a `GithubException` there returns `False`
immediately, as does any non-rate-limit error of the fetch. -/

/-- Outcome of one `get_organization` attempt inside `user_exists_in_org`:
either the organization resolved and `get_members` produced a list
(`members`) or raised a `GithubException` (`membersErr`), or the fetch
raised `RateLimitExceededException`, or some other exception. -/
inductive OrgAttempt : Type
  | members (ms : List String)
  | membersErr (e : String)
  | rateLimit
  | err (e : String)
deriving DecidableEq

/-- Environment of `user_exists_in_org`: the result of `validate_user` and
the outcome of each organization-fetch attempt. -/
structure UserOrgEnv : Type where
  validate : Option String
  attempts : Nat → OrgAttempt

/-- The retry loop of `user_exists_in_org` (lines 27-47): `i` is the index
of the next attempt, the second argument the number of attempts still
allowed (`max_attempts - attempt`).  Returns the boolean result together
with the number of organization fetches performed. -/
def orgLoop (att : Nat → OrgAttempt) (vname : String) : Nat → Nat → Bool × Nat
  | _, 0 => (false, 0)
  | i, fuel + 1 =>
    match att i with
    | OrgAttempt.members ms => (ms.any (fun l => l == vname), 1)
    | OrgAttempt.membersErr _ => (false, 1)
    | OrgAttempt.err _ => (false, 1)
    | OrgAttempt.rateLimit =>
      ((orgLoop att vname (i + 1) fuel).1, (orgLoop att vname (i + 1) fuel).2 + 1)

/-- Model of `user_exists_in_org(gh_client, org_name, username)`.  Returns
the boolean result together with the number of organization fetches
performed (the trace the retry-bound claim is about). -/
def user_exists_in_org (env : UserOrgEnv) (username : String) : Bool × Nat :=
  if isBlankStr username then (false, 0)
  else
    match env.validate with
    | none => (false, 0)
    | some vname => orgLoop env.attempts vname 0 2

/- ### `create_gh_team` (src/module.py lines 50-98)

The cache (dict keyed by lower-cased team name) is consulted first; a hit
returns `(team, "exist")` without any create call.  On a miss the create
call runs; its outcome is supplied by the environment.  In the source the
`raise` at line 91 sits after the whole `if/elif/else` chain, so every
`GithubException` — including 422 and 403 — is re-raised after being
logged; `RateLimitExceededException` and any other exception are re-raised
by the outer handlers (lines 93-98). -/

/-- A target team as cached by `migrate_teams_optimized`. -/
structure Team : Type where
  name : String
  slug : String
  privacy : String
deriving DecidableEq

/-- Outcome of the `org.create_team` call. -/
inductive CreateCall : Type
  | ok (t : Team)
  | github (status : Nat)
  | rateLimit
  | other (e : String)
deriving DecidableEq

/-- Exception escaping `create_gh_team`. -/
inductive CreateErr : Type
  | github (status : Nat)
  | rateLimit
  | other (e : String)
deriving DecidableEq

/-- Model of `create_gh_team`.  `orgCall` is the outcome of the initial
`get_organization` call, `cache` the `target_teams_cache` dict, and
`createCall` the outcome of `org.create_team` if it is reached. -/
def create_gh_team (orgCall : Except CreateErr Unit) (cache : List (String × Team))
    (team_name : String) (createCall : CreateCall) : Except CreateErr (Team × String) :=
  match orgCall with
  | Except.error e => Except.error e
  | Except.ok _ =>
    match assocFind cache (lowerStr team_name) with
    | some t => Except.ok (t, "exist")
    | none =>
      match createCall with
      | CreateCall.ok t => Except.ok (t, "new")
      | CreateCall.github s => Except.error (CreateErr.github s)
      | CreateCall.rateLimit => Except.error CreateErr.rateLimit
      | CreateCall.other e => Except.error (CreateErr.other e)

/- ### `migrate_team_members` (src/module.py lines 139-244)

The source-member listing and every per-member call site follow the pattern
"try once; on `RateLimitExceededException` retry once; the second attempt is
unprotected" (lines 149-154, 172-180, 184-190), modelled by `twoTry` over an
attempt-indexed outcome.  Per member the loop (lines 158-215):
checks `user_exists_in_org` (skip with reason, `members_failed += 1`),
fetches the source-team role, adds the member with that role, and records
`success`/`failed`; a rate limit surviving the inner retry or any other
exception is caught by the per-member handlers (lines 200-215) and recorded
as `failed`.  The function always returns a result dict; listing failures
are caught by the outer handlers (lines 225-244). -/

/-- Outcome of one external call attempt: normal result,
`RateLimitExceededException`, or another exception. -/
inductive CallRes (α : Type) : Type
  | ok (a : α)
  | rateLimit
  | err (e : String)
deriving DecidableEq

/-- The source pattern "try; on rate limit retry once, unprotected":
attempt 0, and attempt 1 only if attempt 0 hit the rate limit. -/
def twoTry {α : Type} (c : Nat → CallRes α) : CallRes α :=
  match c 0 with
  | CallRes.rateLimit => c 1
  | r => r

/-- Environment for processing one source-team member: the login, the
environment of its `user_exists_in_org` check, and the attempt-indexed
outcomes of the role fetch (`get_team_membership(...).role`) and of
`target_team.add_membership`. -/
structure MemberCtx : Type where
  login : String
  userEnv : UserOrgEnv
  roleCall : Nat → CallRes String
  addCall : Nat → CallRes Unit

/-- Per-member outcome as recorded in `users_status`. -/
inductive MemberStatus : Type
  | success (role : String)
  | skipped
  | failed (reason : String)
deriving DecidableEq

/-- Role normalisation of line 176: `'maintainer' if ... == 'maintainer'
else 'member'`. -/
def roleOf (r : String) : String := if r == "maintainer" then "maintainer" else "member"

/-- The body of the per-member loop (lines 161-215). -/
def processMember (m : MemberCtx) : MemberStatus :=
  if (user_exists_in_org m.userEnv m.login).1 then
    match twoTry m.roleCall with
    | CallRes.ok r =>
      match twoTry m.addCall with
      | CallRes.ok _ => MemberStatus.success (roleOf r)
      | CallRes.rateLimit => MemberStatus.failed "Rate limit exceeded"
      | CallRes.err e => MemberStatus.failed e
    | CallRes.rateLimit => MemberStatus.failed "Rate limit exceeded"
    | CallRes.err e => MemberStatus.failed e
  else MemberStatus.skipped

/-- Accumulator of the per-member loop: the `users_status` dict, the
`member_details` list and the two counters. -/
structure LoopState : Type where
  users_status : List (String × MemberStatus)
  member_details : List String
  migrated : Nat
  failed : Nat
deriving DecidableEq

/-- One iteration of the per-member loop: record the member's outcome in
`users_status` and `member_details` and bump the counters.  Note that a
skipped member increments `members_failed` (line 168) exactly like a failed
one. -/
def stepMember (st : LoopState) (m : MemberCtx) : LoopState :=
  match processMember m with
  | MemberStatus.success role =>
    ⟨statusSet st.users_status m.login (MemberStatus.success role),
     st.member_details ++ [m.login ++ ": Success - Added as " ++ role],
     st.migrated + 1, st.failed⟩
  | MemberStatus.skipped =>
    ⟨statusSet st.users_status m.login MemberStatus.skipped,
     st.member_details ++ [m.login ++ ": Skipped - User not found in target organization"],
     st.migrated, st.failed + 1⟩
  | MemberStatus.failed reason =>
    ⟨statusSet st.users_status m.login (MemberStatus.failed reason),
     st.member_details ++ [m.login ++ ": Failed - " ++ reason],
     st.migrated, st.failed + 1⟩

/-- Environment of one `migrate_team_members` run: the attempt-indexed
outcome of listing the source team's members, each member carrying its own
call environment. -/
structure MigEnv : Type where
  listing : Nat → CallRes (List MemberCtx)

/-- The dict returned by `migrate_team_members` (lines 217-244).  The local
`users_status` dict is not part of the Python return value; it is exposed
here as an additional field so the per-member records can be stated. -/
structure MigResult : Type where
  success : Bool
  total_members : Nat
  members_migrated : Nat
  members_failed : Nat
  member_details : List String
  users_status : List (String × MemberStatus)
deriving DecidableEq

/-- Model of `migrate_team_members`.  All exception paths return a result
dict; nothing escapes. -/
def migrate_team_members (env : MigEnv) : MigResult :=
  match twoTry env.listing with
  | CallRes.ok ms =>
    let fin := ms.foldl stepMember ⟨[], [], 0, 0⟩
    ⟨fin.failed == 0, ms.length, fin.migrated, fin.failed,
     fin.member_details, fin.users_status⟩
  | CallRes.rateLimit =>
    ⟨false, 0, 0, 0, ["Error: Rate limit exceeded"], []⟩
  | CallRes.err e =>
    ⟨false, 0, 0, 0, ["Error: " ++ e], []⟩

/-- True for the member statuses that increment `members_failed`. -/
def isFail (s : MemberStatus) : Bool :=
  match s with
  | MemberStatus.success _ => false
  | MemberStatus.skipped => true
  | MemberStatus.failed _ => true

/- ### External-group binding (src/module.py lines 426-576)

`check_team_external_group_mapping` issues one GET on the team's
external-groups binding and never lets an exception escape (lines 574-576).
`map_external_group_to_team` first runs that check with
`expected_group_name = team_slug` (line 445); when the team is already
mapped it returns `True` with no further request.  Otherwise it resolves a
group id (explicit argument, else the IDP cache keyed by the lower-cased
slug, else a search by display name whose first **exact** lower-case name
match is taken, line 472) and PATCHes the binding.  HTTP requests are
recorded in an explicit trace so "zero mutating calls" is statable. -/

/-- An external IDP group as returned by the platform. -/
structure Group : Type where
  group_name : String
  group_id : String
deriving DecidableEq

/-- A response from `make_github_request`: a status code with parsed body,
or a raised `requests.exceptions.RequestException`. -/
inductive HttpResp (β : Type) : Type
  | resp (status : Nat) (body : β)
  | netErr
deriving DecidableEq

/-- The HTTP requests `map_external_group_to_team` can issue, in order of
appearance; only `patchBinding` mutates. -/
inductive ReqKind : Type
  | getBinding
  | getSearch
  | patchBinding (group_id : String)
deriving DecidableEq

/-- Exception escaping `map_external_group_to_team` (`requests`
network/HTTP errors versus any other exception, lines 508-513). -/
inductive MapErr : Type
  | network
  | other
deriving DecidableEq

/-- Environment of one `map_external_group_to_team` run: the responses to
the binding GET, the display-name search GET, and the binding PATCH. -/
structure MapEnv : Type where
  binding : HttpResp (List Group)
  search : HttpResp (List Group)
  patch : HttpResp Unit

/-- Model of `check_team_external_group_mapping` (lines 515-576).
`groups` is the `groups` array of the 200 body; the first entry is the
current binding.  The expected-name test (lines 552-554) is lower-cased
exact or substring; an empty `expected_group_name` is falsy in Python, so
it selects the no-expected-name branch (line 562). -/
def check_team_external_group_mapping (r : HttpResp (List Group))
    (expected_group_name : String) : Bool × Option Group :=
  match r with
  | HttpResp.netErr => (false, none)
  | HttpResp.resp s groups =>
    if s = 200 then
      match groups with
      | [] => (false, none)
      | g :: _ =>
        if expected_group_name = "" then (true, some g)
        else if lowerStr g.group_name == lowerStr expected_group_name
                || strIn (lowerStr expected_group_name) (lowerStr g.group_name) then
          (true, some g)
        else (false, some g)
    else (false, none)

/-- Verdict of the binding PATCH (lines 491-507): 200/201 succeed,
404/422/403 are terminal failures, any other status of at least 400 raises
through `raise_for_status` and is re-raised as a network error, and a
network failure of the request itself is re-raised. -/
def patchVerdict (r : HttpResp Unit) : Except MapErr Bool :=
  match r with
  | HttpResp.netErr => Except.error MapErr.network
  | HttpResp.resp s _ =>
    if s = 200 ∨ s = 201 then Except.ok true
    else if s = 404 then Except.ok false
    else if s = 422 then Except.ok false
    else if s = 403 then Except.ok false
    else if 400 ≤ s then Except.error MapErr.network
    else Except.ok false

/-- The PATCH step of `map_external_group_to_team` (lines 482-507): issue
the request, then apply the response policy. -/
def patchStep (env : MapEnv) (gid : String) (tr : List ReqKind) :
    Except MapErr Bool × List ReqKind :=
  (patchVerdict env.patch, tr ++ [ReqKind.patchBinding gid])

/-- Model of `map_external_group_to_team` (lines 426-513), returning the
result (or raised exception) together with the trace of HTTP requests
issued. -/
def map_external_group_to_team (env : MapEnv) (team_slug : String)
    (group_id : Option String) (idp_group_cache : List (String × Group)) :
    Except MapErr Bool × List ReqKind :=
  if (check_team_external_group_mapping env.binding team_slug).1 then
    (Except.ok true, [ReqKind.getBinding])
  else
    match group_id with
    | some gid => patchStep env gid [ReqKind.getBinding]
    | none =>
      match assocFind idp_group_cache (lowerStr team_slug) with
      | some g => patchStep env g.group_id [ReqKind.getBinding]
      | none =>
        match env.search with
        | HttpResp.netErr =>
          (Except.error MapErr.network, [ReqKind.getBinding, ReqKind.getSearch])
        | HttpResp.resp s groups =>
          if s ≠ 200 then (Except.ok false, [ReqKind.getBinding, ReqKind.getSearch])
          else
            match groups with
            | [] => (Except.ok false, [ReqKind.getBinding, ReqKind.getSearch])
            | g0 :: gs =>
              match (g0 :: gs).find? (fun g => lowerStr g.group_name == lowerStr team_slug) with
              | none => (Except.ok false, [ReqKind.getBinding, ReqKind.getSearch])
              | some g => patchStep env g.group_id [ReqKind.getBinding, ReqKind.getSearch]

/- ### Batch Scheduler of `migrate_teams_optimized` (src/module.py lines 705-934)

The ordered team list is split into batches of 100 (line 711) and processed
team by team.  The body of the per-team `try` (lines 726-879) is abstracted
by an oracle `env : Nat → String → TeamOutcome` giving, per restart depth
and team name, either the status string recorded in `migration_status`
(success / exists / partial_success / skipped / failed — every non-rate-limit
path of the body records one) or `RateLimitExceededException` escaping the
body.  On a rate limit the handler (lines 866-874) computes
`batch[batch.index(team_name):] + [t for b in batches[batch_num:] for t in b]`
and returns the value of a recursive call whose `migration_status` and
`migration_details` start again from `{}` (lines 585-587); the partial
status map of the interrupted call is therefore discarded.  The final
return value (line 934) is `all(status in ["success", "exists"] ...)` over
the innermost call's status map.  Recursion is made total by a fuel
argument bounding the number of rate-limit restarts. -/

/-- Outcome of processing one team inside the batch loop: the status string
recorded in `migration_status`, or a rate-limit exception escaping to the
handler at line 866. -/
inductive TeamOutcome : Type
  | ok (s : String)
  | rateLimit
deriving DecidableEq

/-- The `migration_status` dict. -/
abbrev StatusMap := List (String × String)

/-- Result of running the batch loop of one invocation: finished with a
status map, or interrupted by a rate limit with the computed remaining team
list and the (discarded) partial status map. -/
inductive RunStep : Type
  | done (st : StatusMap)
  | restart (remaining : List String) (st : StatusMap)
deriving DecidableEq

/-- Python `l.index(a)`: index of the first occurrence. -/
def idxOf {α : Type} [DecidableEq α] (a : α) : List α → Nat
  | [] => 0
  | b :: l => if b = a then 0 else idxOf a l + 1

/-- Batching helper with explicit fuel (the list length suffices for any
positive chunk size). -/
def chunkAux {α : Type} (n : Nat) : Nat → List α → List (List α)
  | 0, _ => []
  | _ + 1, [] => []
  | fuel + 1, a :: l => (a :: l).take n :: chunkAux n fuel ((a :: l).drop n)

/-- Model of `[teams[i:i+n] for i in range(0, len(teams), n)]` (line 711). -/
def chunkList {α : Type} (n : Nat) (l : List α) : List (List α) :=
  chunkAux n l.length l

/-- The inner `for team_name in batch` loop (lines 716-879).  `fullBatch`
is the batch as iterated (`batch.index` is computed on it), `bs` the later
batches, and the last two arguments the teams still pending in this batch
and the status map so far. -/
def procTeams (env : String → TeamOutcome) (fullBatch : List String)
    (bs : List (List String)) : List String → StatusMap → RunStep
  | [], st => RunStep.done st
  | t :: ts, st =>
    match env t with
    | TeamOutcome.ok s => procTeams env fullBatch bs ts (statusSet st t s)
    | TeamOutcome.rateLimit =>
      RunStep.restart (fullBatch.drop (idxOf t fullBatch) ++ List.flatten bs) st

/-- The outer `for batch_num, batch in enumerate(batches, 1)` loop (lines
713-883); the inter-batch rate-limit check (line 883) only sleeps and is
stateless. -/
def procBatches (env : String → TeamOutcome) : List (List String) → StatusMap → RunStep
  | [], st => RunStep.done st
  | b :: bs, st =>
    match procTeams env b bs b st with
    | RunStep.done st2 => procBatches env bs st2
    | RunStep.restart r st2 => RunStep.restart r st2

/-- Success-equivalent statuses of the final check (line 934). -/
def successStatus (s : String) : Bool := s == "success" || s == "exists"

/-- Model of `migrate_teams_optimized` from the batch loop on: the first
argument gives the per-team outcome at each restart depth, then the current
depth, the restart fuel and the team list.  Each invocation starts from an
empty `migration_status` (line 586); a rate limit hands the computed
remaining list to a fresh recursive invocation (lines 872-874) and returns
its value, so the interrupted invocation's partial map is dropped.  Returns
the innermost invocation's status map and the line-934 boolean. -/
def migrate_teams_optimized (env : Nat → String → TeamOutcome) :
    Nat → Nat → List String → Option (StatusMap × Bool)
  | _, 0, _ => none
  | d, fuel + 1, teams =>
    match procBatches (env d) (chunkList 100 teams) [] with
    | RunStep.done st => some (st, st.all (fun p => successStatus p.2))
    | RunStep.restart r _ => migrate_teams_optimized env (d + 1) fuel r

/- ### Concrete environments for counterexamples and witnesses -/

/-- Scheduler oracle: at depth 0 team `b` hits the rate limit, everything
else (and every team at later depths) records `success`. -/
def envC1 : Nat → String → TeamOutcome := fun d t =>
  if d == 0 && t == "b" then TeamOutcome.rateLimit else TeamOutcome.ok "success"

/-- Scheduler oracle: every team records `success` at every depth. -/
def envC9 : Nat → String → TeamOutcome := fun _ _ => TeamOutcome.ok "success"

/-- Mapping environment: team not yet bound, search finds one group whose
name strictly contains the slug `alpha` without being equal to it. -/
def envC4 : MapEnv :=
  ⟨HttpResp.resp 200 [], HttpResp.resp 200 [⟨"team-alpha-x", "G1"⟩], HttpResp.resp 200 ()⟩

/-- Mapping environment: team not yet bound, patch answers 200. -/
def envC8 : MapEnv := ⟨HttpResp.resp 200 [], HttpResp.resp 200 [], HttpResp.resp 200 ()⟩

/-- Mapping environment: team already bound to the group named by its own
slug. -/
def envC3 : MapEnv :=
  ⟨HttpResp.resp 200 [⟨"alpha", "G1"⟩], HttpResp.resp 200 [], HttpResp.resp 200 ()⟩

/-- Organization-fetch oracle that always succeeds with member `alice`. -/
def attOkAlice : Nat → OrgAttempt := fun _ => OrgAttempt.members ["alice"]

/-- User-check environment that always hits the rate limit. -/
def envC7 : UserOrgEnv := ⟨some "alice", fun _ => OrgAttempt.rateLimit⟩

/-- Member that validates and whose role fetch and add both succeed. -/
def ctxAlice : MemberCtx :=
  ⟨"alice", ⟨some "alice", attOkAlice⟩, fun _ => CallRes.ok "member", fun _ => CallRes.ok ()⟩

/-- Member whose platform validation fails (`validate_user` returns
nothing), so the target-organization check fails. -/
def ctxBob : MemberCtx :=
  ⟨"bob", ⟨none, attOkAlice⟩, fun _ => CallRes.ok "member", fun _ => CallRes.ok ()⟩

/-- Member-migration environment with the single member `alice`. -/
def envC5 : MigEnv := ⟨fun _ => CallRes.ok [ctxAlice]⟩

/-- Member-migration environment whose member listing hits the rate limit
on both attempts. -/
def envC6 : MigEnv := ⟨fun _ => CallRes.rateLimit⟩

/-- Member-migration environment whose listing succeeds. -/
def envC6ok : MigEnv := ⟨fun _ => CallRes.ok []⟩

/-- Member-migration environment with one migrated and one skipped member. -/
def envC10 : MigEnv := ⟨fun _ => CallRes.ok [ctxAlice, ctxBob]⟩

/- ### Claim C2 — error handling of `create_gh_team` -/

/-- Claim C2, counterexample: the claim says a 422 (validation) or 403
(permission) create failure puts the team in state `failed` inside
`create_gh_team` without re-raising, while only other platform errors are
re-raised.  In the source the `raise` at line 91 follows the whole
`if/elif/else`, so 422 and 403 are re-raised to the caller exactly like any
other `GithubException`: on a cache miss with a 422 (resp. 403) create
failure the function raises. -/
theorem c2_counterexample :
    create_gh_team (Except.ok ()) [] "teamA" (CreateCall.github 422) =
      Except.error (CreateErr.github 422) ∧
    create_gh_team (Except.ok ()) [] "teamA" (CreateCall.github 403) =
      Except.error (CreateErr.github 403) :=
  ⟨rfl, rfl⟩

/-- Claim C2, amended: whenever the create call fails with any
`GithubException` — including validation (422) and permission (403) errors,
which are only logged with status-specific messages — `create_gh_team`
re-raises the exception to the caller; a rate-limit error is likewise
re-raised for the Batch Scheduler's outer retry path.  No terminal `failed`
state is assigned inside `create_gh_team`. -/
theorem c2_create_reraise (cache : List (String × Team)) (name : String) (s : Nat)
    (h : assocFind cache (lowerStr name) = none) :
    create_gh_team (Except.ok ()) cache name (CreateCall.github s) =
      Except.error (CreateErr.github s) ∧
    create_gh_team (Except.ok ()) cache name CreateCall.rateLimit =
      Except.error CreateErr.rateLimit := by
  unfold create_gh_team
  rw [h]
  exact ⟨rfl, rfl⟩

/-- Claim C2, witness for the amended theorem at a concrete input. -/
theorem c2_create_reraise_witness :
    create_gh_team (Except.ok ()) [] "teamA" (CreateCall.github 500) =
      Except.error (CreateErr.github 500) :=
  (c2_create_reraise [] "teamA" 500 rfl).1

/- ### Claim C7 — bounded retry in `user_exists_in_org` -/

/-- The retry loop performs at most as many organization fetches as it has
attempts left. -/
theorem orgLoop_count_le (att : Nat → OrgAttempt) (v : String) :
    ∀ fuel i, (orgLoop att v i fuel).2 ≤ fuel := by
  intro fuel
  induction fuel with
  | zero => intro i; simp [orgLoop]
  | succ f ih =>
    intro i
    unfold orgLoop
    cases att i with
    | members ms => simp
    | membersErr e => simp
    | err e => simp
    | rateLimit =>
      simp only []
      have := ih (i + 1)
      omega

/-- Claim C7: `user_exists_in_org` fetches the organization at most twice
(`max_attempts = 2`, line 24) — in particular the loop always terminates —
and when both attempts hit the rate limit it gives up and returns `False`. -/
theorem c7_bounded_org_retry (env : UserOrgEnv) (u : String) :
    (user_exists_in_org env u).2 ≤ 2 ∧
    (env.attempts 0 = OrgAttempt.rateLimit → env.attempts 1 = OrgAttempt.rateLimit →
      (user_exists_in_org env u).1 = false) := by
  constructor
  · unfold user_exists_in_org
    cases hb : isBlankStr u with
    | true => simp
    | false =>
      simp only [Bool.false_eq_true, if_neg]
      cases env.validate with
      | none => simp
      | some v => simpa using orgLoop_count_le env.attempts v 2 0
  · intro h0 h1
    unfold user_exists_in_org
    cases hb : isBlankStr u with
    | true => simp
    | false =>
      simp only [Bool.false_eq_true, if_neg]
      cases env.validate with
      | none => simp
      | some v => simp [orgLoop, h0, h1]

/-- Claim C7, witness: with the rate limit persisting on both attempts the
check returns "not a member". -/
theorem c7_bounded_org_retry_witness : (user_exists_in_org envC7 "alice").1 = false :=
  (c7_bounded_org_retry envC7 "alice").2 rfl rfl

/- ### Claim C9 — final return value of `migrate_teams_optimized` -/

/-- Claim C9: whenever the scheduler terminates, the returned boolean is
true exactly when every team recorded in the (final) migration status map
reached a success-equivalent status, i.e. `success` or `exists` (line 934). -/
theorem c9_overall_success (env : Nat → String → TeamOutcome) :
    ∀ fuel d teams st b,
      migrate_teams_optimized env d fuel teams = some (st, b) →
      (b = true ↔ ∀ p ∈ st, successStatus p.2 = true) := by
  intro fuel
  induction fuel with
  | zero => intro d teams st b h; exact absurd h (by simp [migrate_teams_optimized])
  | succ f ih =>
    intro d teams st b h
    unfold migrate_teams_optimized at h
    cases hp : procBatches (env d) (chunkList 100 teams) [] with
    | done st2 =>
      rw [hp] at h
      have h1 : st2 = st ∧ (st2.all fun p => successStatus p.2) = b := by
        have := Option.some.inj h
        exact ⟨congrArg Prod.fst this, congrArg Prod.snd this⟩
      rcases h1 with ⟨rfl, rfl⟩
      exact List.all_eq_true
    | restart r st2 =>
      rw [hp] at h
      exact ih (d + 1) r st b h

/-- Claim C9, witness: a one-team run recording `success` returns `true`. -/
theorem c9_overall_success_witness :
    (true = true ↔ ∀ p ∈ ([("a", "success")] : StatusMap), successStatus p.2 = true) :=
  c9_overall_success envC9 1 0 ["a"] [("a", "success")] true rfl

/- ### Claim C1 — rate-limit restart of the Batch Scheduler -/

/-- Claim C1, counterexample: the claim says statuses recorded before the
rate-limit exception are preserved in the final summary.  With the oracle
`envC1`, team `a` is processed and recorded as `success` at depth 0 before
team `b` raises the rate limit (first conjunct: the interrupted invocation
holds `("a", "success")` and restarts on exactly `["b"]`), yet the final
result of the run contains only `("b", "success")` — the record for `a` is
lost because the recursive invocation starts from an empty status map. -/
theorem c1_counterexample :
    procBatches (envC1 0) (chunkList 100 ["a", "b"]) [] =
      RunStep.restart ["b"] [("a", "success")] ∧
    migrate_teams_optimized envC1 0 2 ["a", "b"] =
      some ([("b", "success")], true) :=
  ⟨rfl, rfl⟩

/-- A batch whose every pending team processes without rate limit runs to
completion. -/
theorem procTeams_done (env : String → TeamOutcome) (fullBatch : List String)
    (bs : List (List String)) :
    ∀ l st, (∀ x ∈ l, env x ≠ TeamOutcome.rateLimit) →
      ∃ st2, procTeams env fullBatch bs l st = RunStep.done st2 := by
  intro l
  induction l with
  | nil => intro st h; exact ⟨st, rfl⟩
  | cons t ts ih =>
    intro st h
    have ht := h t (List.mem_cons_self t ts)
    cases he : env t with
    | rateLimit => exact absurd he ht
    | ok s =>
      have := ih (statusSet st t s) (fun x hx => h x (List.mem_cons_of_mem t hx))
      simpa [procTeams, he] using this

/-- Processing stops with a restart at the first rate-limited team of a
batch, carrying the suffix of the batch from that team's first occurrence
plus all later batches. -/
theorem procTeams_restart (env : String → TeamOutcome) (fullBatch : List String)
    (bs : List (List String)) :
    ∀ rest t ts st, (∀ x ∈ rest, env x ≠ TeamOutcome.rateLimit) →
      env t = TeamOutcome.rateLimit →
      ∃ st2, procTeams env fullBatch bs (rest ++ t :: ts) st =
        RunStep.restart (fullBatch.drop (idxOf t fullBatch) ++ List.flatten bs) st2 := by
  intro rest
  induction rest with
  | nil =>
    intro t ts st _ ht
    exact ⟨st, by simp [procTeams, ht]⟩
  | cons a rest ih =>
    intro t ts st h ht
    have ha := h a (List.mem_cons_self a rest)
    cases he : env a with
    | rateLimit => exact absurd he ha
    | ok s =>
      have := ih t ts (statusSet st a s) (fun x hx => h x (List.mem_cons_of_mem a hx)) ht
      simpa [procTeams, he] using this

/-- Batches processed before the failing one are absorbed into the status
map without affecting which restart is produced. -/
theorem procBatches_prefix (env : String → TeamOutcome) :
    ∀ pre bs2 st, (∀ b ∈ pre, ∀ x ∈ b, env x ≠ TeamOutcome.rateLimit) →
      ∃ st2, procBatches env (pre ++ bs2) st = procBatches env bs2 st2 := by
  intro pre
  induction pre with
  | nil => intro bs2 st _; exact ⟨st, rfl⟩
  | cons b pre ih =>
    intro bs2 st h
    obtain ⟨st2, hdone⟩ :=
      procTeams_done env b (pre ++ bs2) b st (h b (List.mem_cons_self b pre))
    obtain ⟨st3, hrest⟩ := ih bs2 st2 (fun b2 hb2 => h b2 (List.mem_cons_of_mem b hb2))
    exact ⟨st3, by simp [procBatches, hdone, hrest]⟩

/-- Dropping at the first occurrence of a fresh element recovers the suffix
it heads. -/
theorem drop_idxOf_append {α : Type} [DecidableEq α] :
    ∀ (done : List α) (t : α) (ts : List α), t ∉ done →
      (done ++ t :: ts).drop (idxOf t (done ++ t :: ts)) = t :: ts := by
  intro done
  induction done with
  | nil => intro t ts _; simp [idxOf]
  | cons a done ih =>
    intro t ts h
    have hne : a ≠ t := fun he => h (he ▸ List.mem_cons_self a done)
    have hnm : t ∉ done := fun hm => h (List.mem_cons_of_mem a hm)
    simp only [List.cons_append, idxOf, if_neg hne, List.drop_succ_cons]
    exact ih t ts hnm

/-- Claim C1, amended: when team `t` is the first team of its batch to hit
the rate limit (all earlier batches and the earlier part of its own batch,
`done`, processed without rate limit, and `t` does not occur in `done`),
the scheduler restarts on exactly the remaining unprocessed teams — `t`
onward in its batch plus all remaining batches — and the restarted
invocation begins from an empty status map: the run's result equals that of
a fresh run on the remaining teams, so the statuses recorded before the
exception are discarded rather than preserved. -/
theorem c1_restart_frame (env : Nat → String → TeamOutcome) (d f : Nat)
    (teams : List String) (pre : List (List String)) (done : List String)
    (t : String) (ts : List String) (bs : List (List String))
    (hchunk : chunkList 100 teams = pre ++ (done ++ t :: ts) :: bs)
    (hpre : ∀ b ∈ pre, ∀ x ∈ b, env d x ≠ TeamOutcome.rateLimit)
    (hdone : ∀ x ∈ done, env d x ≠ TeamOutcome.rateLimit)
    (ht : env d t = TeamOutcome.rateLimit)
    (hfresh : t ∉ done) :
    migrate_teams_optimized env d (f + 1) teams =
      migrate_teams_optimized env (d + 1) f (t :: ts ++ List.flatten bs) := by
  obtain ⟨st2, hpref⟩ :=
    procBatches_prefix (env d) pre ((done ++ t :: ts) :: bs) [] hpre
  obtain ⟨st3, hstop⟩ :=
    procTeams_restart (env d) (done ++ t :: ts) bs done t ts st2 hdone ht
  have hdrop := drop_idxOf_append done t ts hfresh
  rw [hdrop] at hstop
  have hrun : procBatches (env d) (chunkList 100 teams) [] =
      RunStep.restart (t :: ts ++ List.flatten bs) st3 := by
    rw [hchunk, hpref]
    simp [procBatches, hstop]
  have step : migrate_teams_optimized env d (f + 1) teams =
      match procBatches (env d) (chunkList 100 teams) [] with
      | RunStep.done st => some (st, st.all fun p => successStatus p.2)
      | RunStep.restart r _ => migrate_teams_optimized env (d + 1) f r := rfl
  rw [step, hrun]

/-- Claim C1, witness for the amended theorem: the interrupted depth-0 run
on `["a", "b"]` continues exactly as a fresh depth-1 run on `["b"]`. -/
theorem c1_restart_frame_witness :
    migrate_teams_optimized envC1 0 2 ["a", "b"] =
      migrate_teams_optimized envC1 1 1 ["b"] :=
  c1_restart_frame envC1 0 1 ["a", "b"] [] ["a"] "b" [] [] rfl
    (by simp) (by decide) rfl (by decide)

/- ### Claim C3 — binding idempotence -/

/-- Claim C3: when the team is already bound to an external group whose
name matches the expected name (here always the team slug, line 445)
case-insensitively as exact or substring — or when the expected name is
empty, Python's "no expected name given" — `map_external_group_to_team`
returns success having issued only the non-mutating binding GET: no patch
and no delete, "already mapped". -/
theorem c3_binding_idempotent (env : MapEnv) (slug : String) (gid : Option String)
    (cache : List (String × Group)) (g : Group) (gs : List Group)
    (hb : env.binding = HttpResp.resp 200 (g :: gs))
    (hm : slug = "" ∨ lowerStr g.group_name = lowerStr slug ∨
      strIn (lowerStr slug) (lowerStr g.group_name) = true) :
    map_external_group_to_team env slug gid cache = (Except.ok true, [ReqKind.getBinding]) := by
  have hchk : (check_team_external_group_mapping env.binding slug).1 = true := by
    rw [hb]
    unfold check_team_external_group_mapping
    rcases hm with h | h | h
    · simp [h]
    · by_cases hslug : slug = "" <;> simp [hslug, h]
    · by_cases hslug : slug = "" <;> simp [hslug, h]
  unfold map_external_group_to_team
  rw [hchk]
  simp

/-- Claim C3, witness: a team whose binding already carries the group named
by its own slug is reported mapped with a single GET. -/
theorem c3_binding_idempotent_witness :
    map_external_group_to_team envC3 "alpha" none [] =
      (Except.ok true, [ReqKind.getBinding]) :=
  c3_binding_idempotent envC3 "alpha" none [] ⟨"alpha", "G1"⟩ [] rfl
    (Or.inr (Or.inl rfl))

/- ### Claim C4 — cache-miss group resolution -/

/-- Claim C4, counterexample: the claim says the fallback search takes the
first group whose name matches the team slug case-insensitively as
exact-or-substring.  With slug `alpha` and a search result whose only group
is `team-alpha-x` — a substring match (first conjunct) that is not an exact
match (second conjunct) — the function nevertheless fails without patching:
line 472 accepts exact lower-case matches only. -/
theorem c4_counterexample :
    strIn (lowerStr "alpha") (lowerStr "team-alpha-x") = true ∧
    lowerStr "team-alpha-x" ≠ lowerStr "alpha" ∧
    map_external_group_to_team envC4 "alpha" none [] =
      (Except.ok false, [ReqKind.getBinding, ReqKind.getSearch]) :=
  ⟨rfl, by decide, rfl⟩

/-- Claim C4, amended: when no group id is supplied and the team slug
misses the pre-fetched IDP-group cache, `map_external_group_to_team`
queries the external-group search by display name and takes the first group
whose name matches the team slug case-insensitively **exactly** (substring
matches are not accepted, unlike the separate `check_external_idp_group_exists`
helper); when no group matches exactly — in particular when the result list
is empty — it fails with "not found" and issues no patch. -/
theorem c4_exact_match_resolution (env : MapEnv) (slug : String)
    (cache : List (String × Group)) (gs : List Group)
    (hnm : (check_team_external_group_mapping env.binding slug).1 = false)
    (hcache : assocFind cache (lowerStr slug) = none)
    (hsearch : env.search = HttpResp.resp 200 gs) :
    (gs.find? (fun g => lowerStr g.group_name == lowerStr slug) = none →
      map_external_group_to_team env slug none cache =
        (Except.ok false, [ReqKind.getBinding, ReqKind.getSearch])) ∧
    (∀ g, gs.find? (fun g => lowerStr g.group_name == lowerStr slug) = some g →
      map_external_group_to_team env slug none cache =
        (patchVerdict env.patch,
         [ReqKind.getBinding, ReqKind.getSearch, ReqKind.patchBinding g.group_id])) := by
  constructor
  · intro hfind
    unfold map_external_group_to_team
    rw [hnm, hcache, hsearch]
    cases gs with
    | nil => simp
    | cons g0 gs2 => simp [hfind]
  · intro g hfind
    unfold map_external_group_to_team
    rw [hnm, hcache, hsearch]
    cases gs with
    | nil => simp at hfind
    | cons g0 gs2 => simp [hfind, patchStep]

/-- Claim C4, witness for the amended theorem: a substring-only candidate
is rejected and the mapping fails with no patch issued. -/
theorem c4_exact_match_resolution_witness :
    map_external_group_to_team envC4 "alpha" none [] =
      (Except.ok false, [ReqKind.getBinding, ReqKind.getSearch]) :=
  (c4_exact_match_resolution envC4 "alpha" [] [⟨"team-alpha-x", "G1"⟩] rfl rfl rfl).1 rfl

/- ### Claim C8 — response-code policy of the binding patch -/

/-- Claim C8: once the binding patch is reached (team not already mapped,
group id in hand), exactly one patch request is issued (no retry), and the
response policy holds: 200/201 → success and only those succeed; 404, 422
or 403 → terminal failure returned (not raised); a 5xx response or a
network failure → the error is re-raised for the caller's retry path. -/
theorem c8_patch_response_policy (env : MapEnv) (slug gid : String)
    (cache : List (String × Group))
    (hnm : (check_team_external_group_mapping env.binding slug).1 = false) :
    (map_external_group_to_team env slug (some gid) cache).2 =
      [ReqKind.getBinding, ReqKind.patchBinding gid] ∧
    ((env.patch = HttpResp.resp 200 () ∨ env.patch = HttpResp.resp 201 ()) →
      (map_external_group_to_team env slug (some gid) cache).1 = Except.ok true) ∧
    ((env.patch = HttpResp.resp 404 () ∨ env.patch = HttpResp.resp 422 () ∨
        env.patch = HttpResp.resp 403 ()) →
      (map_external_group_to_team env slug (some gid) cache).1 = Except.ok false) ∧
    (∀ s, 500 ≤ s → env.patch = HttpResp.resp s () →
      (map_external_group_to_team env slug (some gid) cache).1 =
        Except.error MapErr.network) ∧
    (env.patch = HttpResp.netErr →
      (map_external_group_to_team env slug (some gid) cache).1 =
        Except.error MapErr.network) ∧
    (∀ s, s ≠ 200 → s ≠ 201 → env.patch = HttpResp.resp s () →
      (map_external_group_to_team env slug (some gid) cache).1 ≠ Except.ok true) := by
  have hmap : map_external_group_to_team env slug (some gid) cache =
      (patchVerdict env.patch, [ReqKind.getBinding, ReqKind.patchBinding gid]) := by
    unfold map_external_group_to_team
    rw [hnm]
    simp [patchStep]
  rw [hmap]
  refine ⟨rfl, ?_, ?_, ?_, ?_, ?_⟩
  · rintro (h | h) <;> rw [h] <;> simp [patchVerdict]
  · rintro (h | h | h) <;> rw [h] <;> simp [patchVerdict]
  · intro s hs h
    have hv : patchVerdict env.patch = Except.error MapErr.network := by
      rw [h]
      simp only [patchVerdict]
      rw [if_neg (by omega), if_neg (by omega), if_neg (by omega), if_neg (by omega),
        if_pos (by omega)]
    simp [hv]
  · intro h; rw [h]; rfl
  · intro s h200 h201 h
    have hv : patchVerdict env.patch ≠ Except.ok true := by
      rw [h]
      simp only [patchVerdict]
      rw [if_neg (by omega)]
      by_cases h4 : s = 404 <;> by_cases h5 : s = 422 <;> by_cases h6 : s = 403 <;>
        by_cases h7 : 400 ≤ s <;> simp [h4, h5, h6, h7]
    simpa using hv

/-- Claim C8, witness: with a 200 patch response the mapping succeeds and
issues exactly one patch. -/
theorem c8_patch_response_policy_witness :
    (map_external_group_to_team envC8 "alpha" (some "G1") []).1 = Except.ok true :=
  (c8_patch_response_policy envC8 "alpha" "G1" [] rfl).2.1 (Or.inl rfl)

/- ### Fold lemmas for the per-member loop -/

/-- Writing a fresh key into the status dict appends it. -/
theorem statusSet_fresh {α : Type} (k : String) (v : α) :
    ∀ l : List (String × α), (∀ p ∈ l, p.1 ≠ k) → statusSet l k v = l ++ [(k, v)] := by
  intro l
  induction l with
  | nil => intro _; rfl
  | cons p l ih =>
    intro h
    have hp := h p (List.mem_cons_self p l)
    cases p with
    | mk k2 v2 =>
      simp only [statusSet, if_neg hp, List.cons_append, List.cons.injEq, true_and]
      exact ih (fun q hq => h q (List.mem_cons_of_mem _ hq))

/-- One loop step records exactly the member's `processMember` outcome in
`users_status`. -/
theorem stepMember_users_status (st : LoopState) (m : MemberCtx) :
    (stepMember st m).users_status =
      statusSet st.users_status m.login (processMember m) := by
  unfold stepMember
  cases h : processMember m <;> simp [h]

/-- One loop step bumps `failed` exactly on skipped or failed outcomes. -/
theorem stepMember_failed (st : LoopState) (m : MemberCtx) :
    (stepMember st m).failed =
      st.failed + (if isFail (processMember m) then 1 else 0) := by
  unfold stepMember
  cases h : processMember m <;> simp [h, isFail]

/-- With pairwise-fresh logins the loop's `users_status` is the list of
per-member outcomes, in order. -/
theorem fold_users_status :
    ∀ (ms : List MemberCtx) (st : LoopState),
      (∀ m ∈ ms, ∀ p ∈ st.users_status, p.1 ≠ m.login) →
      (ms.map (fun m => m.login)).Nodup →
      (ms.foldl stepMember st).users_status =
        st.users_status ++ ms.map (fun m => (m.login, processMember m)) := by
  intro ms
  induction ms with
  | nil => intro st _ _; simp
  | cons m ms ih =>
    intro st hfresh hnd
    have hstep : (stepMember st m).users_status =
        st.users_status ++ [(m.login, processMember m)] := by
      rw [stepMember_users_status]
      exact statusSet_fresh m.login (processMember m) st.users_status
        (hfresh m (List.mem_cons_self m ms))
    have hnd2 : (ms.map (fun m2 => m2.login)).Nodup := (List.nodup_cons.mp hnd).2
    have hnotin : m.login ∉ ms.map (fun m2 => m2.login) := (List.nodup_cons.mp hnd).1
    have hfresh2 : ∀ m2 ∈ ms, ∀ p ∈ (stepMember st m).users_status, p.1 ≠ m2.login := by
      intro m2 hm2 p hp
      rw [hstep] at hp
      rcases List.mem_append.mp hp with hp1 | hp2
      · exact hfresh m2 (List.mem_cons_of_mem m hm2) p hp1
      · have hpe : p = (m.login, processMember m) := by simpa using hp2
        rw [hpe]
        intro heq
        apply hnotin
        have hle : m.login = m2.login := heq
        rw [hle]
        exact List.mem_map_of_mem (fun m3 => m3.login) hm2
    calc ((m :: ms).foldl stepMember st).users_status
        = (ms.foldl stepMember (stepMember st m)).users_status := rfl
      _ = (stepMember st m).users_status ++ ms.map (fun m2 => (m2.login, processMember m2)) :=
          ih (stepMember st m) hfresh2 hnd2
      _ = st.users_status ++ (m :: ms).map (fun m2 => (m2.login, processMember m2)) := by
          rw [hstep]; simp

/-- The loop's `failed` counter counts the members whose outcome is skipped
or failed. -/
theorem fold_failed :
    ∀ (ms : List MemberCtx) (st : LoopState),
      (ms.foldl stepMember st).failed =
        st.failed + ms.countP (fun m => isFail (processMember m)) := by
  intro ms
  induction ms with
  | nil => intro st; simp
  | cons m ms ih =>
    intro st
    have h1 : ((m :: ms).foldl stepMember st).failed =
        (ms.foldl stepMember (stepMember st m)).failed := rfl
    rw [h1, ih, stepMember_failed, List.countP_cons]
    by_cases h : isFail (processMember m)
    · simp only [h, if_pos]
      omega
    · simp [h]

/- ### Claim C5 — membership gating -/

/-- Claim C5: under a successful member listing with pairwise-distinct
logins, `migrate_team_members` records for every source member exactly its
`processMember` outcome; a member whose combined validation
(`user_exists_in_org`: the user resolves on the platform AND is a member of
the target organization) fails is recorded `skipped` and not migrated;
when validation passes and the role fetch and add calls go through, the
member is added (`success`); a member is never recorded `success` unless
validation passed; and on a successful organization fetch the validation is
exactly "the user resolves and the member list contains the validated login
by exact match". -/
theorem c5_membership_gating (env : MigEnv) (ms : List MemberCtx)
    (h : twoTry env.listing = CallRes.ok ms)
    (hnd : (ms.map (fun m => m.login)).Nodup) :
    (migrate_team_members env).users_status =
      ms.map (fun m => (m.login, processMember m)) ∧
    (∀ m ∈ ms, (user_exists_in_org m.userEnv m.login).1 = false →
      processMember m = MemberStatus.skipped) ∧
    (∀ m ∈ ms, (user_exists_in_org m.userEnv m.login).1 = true →
      ∀ r, twoTry m.roleCall = CallRes.ok r → ∀ u, twoTry m.addCall = CallRes.ok u →
        processMember m = MemberStatus.success (roleOf r)) ∧
    (∀ m ∈ ms, ∀ role, processMember m = MemberStatus.success role →
      (user_exists_in_org m.userEnv m.login).1 = true) ∧
    (∀ m ∈ ms, ∀ v ms2, m.userEnv.validate = some v →
      m.userEnv.attempts 0 = OrgAttempt.members ms2 → isBlankStr m.login = false →
      (user_exists_in_org m.userEnv m.login).1 = ms2.any (fun l => l == v)) := by
  refine ⟨?_, ?_, ?_, ?_, ?_⟩
  · have hmap : migrate_team_members env =
        ⟨(ms.foldl stepMember ⟨[], [], 0, 0⟩).failed == 0, ms.length,
         (ms.foldl stepMember ⟨[], [], 0, 0⟩).migrated,
         (ms.foldl stepMember ⟨[], [], 0, 0⟩).failed,
         (ms.foldl stepMember ⟨[], [], 0, 0⟩).member_details,
         (ms.foldl stepMember ⟨[], [], 0, 0⟩).users_status⟩ := by
      unfold migrate_team_members
      rw [h]
    rw [hmap]
    simpa using fold_users_status ms ⟨[], [], 0, 0⟩ (by simp) hnd
  · intro m _ hv
    simp [processMember, hv]
  · intro m _ hv r hr u ha
    simp [processMember, hv, hr, ha]
  · intro m _ role hrole
    cases hv : (user_exists_in_org m.userEnv m.login).1 with
    | true => rfl
    | false => simp [processMember, hv] at hrole
  · intro m _ v ms2 hval hatt hblank
    simp [user_exists_in_org, hblank, hval, orgLoop, hatt]

/-- Claim C5, witness: the single validated member `alice` is recorded as
successfully added with her source role. -/
theorem c5_membership_gating_witness :
    (migrate_team_members envC5).users_status =
      [("alice", MemberStatus.success "member")] :=
  (c5_membership_gating envC5 [ctxAlice] rfl (by simp)).1

/- ### Claim C6 — aggregate success of `migrate_team_members` -/

/-- Claim C6, counterexample: the claim says the returned `success` field
is true if and only if `members_failed` is zero.  When the member listing
hits the rate limit on both attempts, the outer handler (lines 225-234)
returns `success = False` while `members_failed` is still `0`, refuting the
"if" direction. -/
theorem c6_counterexample :
    (migrate_team_members envC6).success = false ∧
    (migrate_team_members envC6).members_failed = 0 :=
  ⟨rfl, rfl⟩

/-- Claim C6, amended: `migrate_team_members` always returns a result dict
(per-member failures are folded into it, never raised); `success = true`
implies `members_failed = 0` unconditionally; and on the normal path — the
member listing succeeded — `success` is true exactly when `members_failed`
is zero.  On the exceptional listing paths the function returns
`success = false` even though `members_failed` is `0`. -/
theorem c6_success_iff_no_failures (env : MigEnv) :
    ((migrate_team_members env).success = true →
      (migrate_team_members env).members_failed = 0) ∧
    (∀ ms, twoTry env.listing = CallRes.ok ms →
      ((migrate_team_members env).success = true ↔
        (migrate_team_members env).members_failed = 0)) := by
  cases hcall : twoTry env.listing with
  | ok ms =>
    have hmk : migrate_team_members env =
        ⟨(ms.foldl stepMember ⟨[], [], 0, 0⟩).failed == 0, ms.length,
         (ms.foldl stepMember ⟨[], [], 0, 0⟩).migrated,
         (ms.foldl stepMember ⟨[], [], 0, 0⟩).failed,
         (ms.foldl stepMember ⟨[], [], 0, 0⟩).member_details,
         (ms.foldl stepMember ⟨[], [], 0, 0⟩).users_status⟩ := by
      unfold migrate_team_members
      rw [hcall]
    rw [hmk]
    constructor
    · intro hs
      simpa using hs
    · intro ms2 _
      simp
  | rateLimit =>
    constructor
    · intro hs
      have : migrate_team_members env = ⟨false, 0, 0, 0, ["Error: Rate limit exceeded"], []⟩ := by
        unfold migrate_team_members
        rw [hcall]
      rw [this] at hs
      simp at hs
    · intro ms2 hms2
      exact absurd hms2 (by simp)
  | err e =>
    constructor
    · intro hs
      have : migrate_team_members env = ⟨false, 0, 0, 0, ["Error: " ++ e], []⟩ := by
        unfold migrate_team_members
        rw [hcall]
      rw [this] at hs
      simp at hs
    · intro ms2 hms2
      exact absurd hms2 (by simp)

/-- Claim C6, witness (normal path): with a successful, empty listing the
equivalence holds. -/
theorem c6_success_iff_no_failures_witness :
    (migrate_team_members envC6ok).success = true ↔
      (migrate_team_members envC6ok).members_failed = 0 :=
  (c6_success_iff_no_failures envC6ok).2 [] rfl

/- ### Claim C10 — skipped members count as failed -/

/-- Claim C10: a member recorded `skipped` (user not found in the target
organization) increments `members_failed` (line 168) exactly like a failed
member — the counter counts every non-success outcome — so any run with at
least one skipped member reports `success = false` even if no member
actually failed. -/
theorem c10_skipped_counts_failed (env : MigEnv) (ms : List MemberCtx) (m : MemberCtx)
    (h : twoTry env.listing = CallRes.ok ms) (hm : m ∈ ms)
    (hs : processMember m = MemberStatus.skipped) :
    (migrate_team_members env).members_failed =
      ms.countP (fun m2 => isFail (processMember m2)) ∧
    1 ≤ (migrate_team_members env).members_failed ∧
    (migrate_team_members env).success = false := by
  have hmk : migrate_team_members env =
      ⟨(ms.foldl stepMember ⟨[], [], 0, 0⟩).failed == 0, ms.length,
       (ms.foldl stepMember ⟨[], [], 0, 0⟩).migrated,
       (ms.foldl stepMember ⟨[], [], 0, 0⟩).failed,
       (ms.foldl stepMember ⟨[], [], 0, 0⟩).member_details,
       (ms.foldl stepMember ⟨[], [], 0, 0⟩).users_status⟩ := by
    unfold migrate_team_members
    rw [h]
  have hcount : (ms.foldl stepMember ⟨[], [], 0, 0⟩).failed =
      ms.countP (fun m2 => isFail (processMember m2)) := by
    rw [fold_failed]
    simp
  have hpos : 0 < ms.countP (fun m2 => isFail (processMember m2)) :=
    List.countP_pos_iff.mpr ⟨m, hm, by simp [hs, isFail]⟩
  refine ⟨?_, ?_, ?_⟩
  · rw [hmk]; exact hcount
  · rw [hmk]; simpa [hcount] using hpos
  · rw [hmk]
    simp only [MigResult.success]
    rw [hcount]
    simpa using Nat.pos_iff_ne_zero.mp hpos

/-- Claim C10, witness: one migrated member plus one skipped member yields
`success = false` although no member failed outright. -/
theorem c10_skipped_counts_failed_witness :
    (migrate_team_members envC10).success = false :=
  (c10_skipped_counts_failed envC10 [ctxAlice, ctxBob] ctxBob rfl
    (List.Mem.tail ctxAlice (List.Mem.head [])) rfl).2.2

end Brahma
